import Mathlib

/-
  Verification development for the event-propagation core of the
  `flash.events.EventDispatcher` builtin (ruffle, `core/src/avm2/globals/
  flash/events/eventdispatcher.rs`).

  The extracted sources contain the script-facing entry points
  (`instance_init`, `dispatch_list`, `add_event_listener`,
  `remove_event_listener`, `has_event_listener`, `will_trigger`,
  `dispatch_event`).  The listener-list data structure, the internal
  dispatch algorithm (`dispatch_event_internal`), the broadcast registry
  (`register_broadcast_listener`) and the tree lookup (`parent_of`) are
  collaborators living outside the extracted sources; those parts are
  modelled from the specification and marked as such in their doc
  comments.
-/

set_option maxHeartbeats 1000000

namespace RuffleEvents

/-- Modelled from the spec: a Listener Entry of the listener-list
implementation (which lives outside the extracted sources; only its
callers are extracted).  The event type and the `useCapture` flag are
determined by which bucket of the Dispatch List the entry sits in, so an
entry carries its priority (signed 32-bit in the source, modelled as
`Int`) and the identity of its callback handle. -/
structure Entry where
  priority : Int
  callback : Nat
deriving Repr, DecidableEq

/-- Modelled from the spec: raw stable priority insertion into one phase
bucket.  The new entry is placed after every entry of greater-or-equal
priority and before the first entry of strictly smaller priority, which
keeps the bucket priority-descending and insertion-stable. -/
def insertEntry (e : Entry) : List Entry → List Entry
  | [] => [e]
  | x :: xs => if x.priority < e.priority then e :: x :: xs else x :: insertEntry e xs

/-- Modelled from the spec: `insert` on one phase bucket.  If an entry
with the same callback already exists the call is a no-op (even when the
priority differs); otherwise the entry is inserted at its stable
priority position. -/
def insertListener (l : List Entry) (p : Int) (cb : Nat) : List Entry :=
  if l.any (fun e => e.callback == cb) then l else insertEntry ⟨p, cb⟩ l

/-- Modelled from the spec: `remove` on one phase bucket — removes the
entry with the given callback if present, silently a no-op otherwise. -/
def removeListener (l : List Entry) (cb : Nat) : List Entry :=
  l.filter (fun e => ¬ e.callback = cb)

/-- The listener-list ordering invariant: priorities are descending
(equal priorities allowed; stability is a separate statement about where
`insertEntry` places a new entry). -/
def SortedDesc (l : List Entry) : Prop :=
  l.Pairwise (fun a b => b.priority ≤ a.priority)

instance : DecidablePred SortedDesc := fun l =>
  inferInstanceAs (Decidable (l.Pairwise _))

/-! ### The dispatch algorithm (spec §4.3)

`dispatch_event_internal` lives in `crate::avm2::events`, outside the
extracted sources; only its caller (`dispatch_event` in
`eventdispatcher.rs`) is extracted.  The machine below is modelled from
the specification's seven-step algorithm.  Nodes are identified by
naturals; the event type is fixed for one dispatch, so each node carries
one pair of phase buckets (capture bucket, bubble/target bucket). -/

/-- Event phase, with a neutral terminal value the algorithm resets to
on completion (spec step 6). -/
inductive Phase where
  | capturing
  | atTarget
  | bubbling
  | idle
deriving Repr, DecidableEq

/-- Modelled from the spec: the dispatch-time state of an Event — its
construction-fixed flags and the mutable fields set by the algorithm. -/
structure EvState where
  bubbles : Bool
  cancelable : Bool
  target : Option Nat
  currentTarget : Option Nat
  phase : Phase
  propStopped : Bool
  immStopped : Bool
  defaultPrevented : Bool
deriving Repr, DecidableEq

/-- The mutable world a dispatch runs over: per-node phase buckets for
the dispatched type (capture bucket first, bubble/target bucket second)
and the event state.  The fired-listener log is threaded separately so a
listener's side effect can never touch it. -/
structure Core where
  lists : Nat → List Entry × List Entry
  ev : EvState

/-- A listener behaviour: the side effect a callback handle performs on
the world when invoked (re-entrant listener management, cancellation
flags, ...). -/
def Behavior : Type := Nat → Core → Core

/-- Set the event's `currentTarget` and `phase` fields. -/
def setCur (c : Core) (t : Option Nat) (ph : Phase) : Core :=
  { c with ev := { c.ev with currentTarget := t, phase := ph } }

/-- Modelled from the spec: one firing pass over a snapshot of a phase
bucket.  Each entry is logged then its behaviour applied; firing of the
remaining snapshot stops as soon as `immediatePropagationStopped` is
set.  The snapshot is a plain list argument, so mutations the behaviours
make to `Core.lists` cannot affect the pass. -/
def fireList (beh : Behavior) : List Entry → Core × List Nat → Core × List Nat
  | [], wl => wl
  | e :: rest, (c, log) =>
    if c.ev.immStopped then (c, log)
    else fireList beh rest (beh e.callback c, log ++ [e.callback])

/-- Modelled from the spec: fire one node's bucket (capture bucket when
`uc` is true) from a snapshot taken at entry. -/
def fireNode (beh : Behavior) (n : Nat) (uc : Bool) : Core × List Nat → Core × List Nat
  | (c, log) =>
    fireList beh (if uc then (c.lists n).1 else (c.lists n).2) (c, log)

/-- Modelled from the spec: the capturing phase walk, root down to (but
excluding) the target; aborted as soon as `propagationStopped` is set. -/
def captureLoop (beh : Behavior) : List Nat → Core × List Nat → Core × List Nat
  | [], wl => wl
  | n :: rest, (c, log) =>
    if c.ev.propStopped then (c, log)
    else captureLoop beh rest (fireNode beh n true (setCur c (some n) Phase.capturing, log))

/-- Modelled from the spec: the bubbling phase walk, from the node just
above the target up to the root; aborted as soon as
`propagationStopped` is set. -/
def bubbleLoop (beh : Behavior) : List Nat → Core × List Nat → Core × List Nat
  | [], wl => wl
  | n :: rest, (c, log) =>
    if c.ev.propStopped then (c, log)
    else bubbleLoop beh rest (fireNode beh n false (setCur c (some n) Phase.bubbling, log))

/-- Modelled from the spec: the propagation path `[D, P1, ..., Root]`
obtained by following the parent relation upward from the target, with
fuel bounding the walk (trees are finite; any fuel at least the depth
gives the full path). -/
def pathFrom (parent : Nat → Option Nat) : Nat → Nat → List Nat
  | 0, n => [n]
  | fuel + 1, n =>
    n :: (match parent n with
          | some p => pathFrom parent fuel p
          | none => [])

/-- Modelled from the spec: `dispatch_event_internal` — the seven-step
dispatch algorithm of §4.3.  Resets the event's dispatch-time fields at
entry, computes the path once, runs capture (root → excluding target),
at-target (the target still fires when `stopPropagation` was taken
during capture), and bubbling (only when the event bubbles and
propagation was not stopped), then resets `currentTarget`/`phase` and
returns whether default behaviour remains un-cancelled. -/
def dispatchEventCore (beh : Behavior) (parent : Nat → Option Nat) (fuel : Nat)
    (d : Nat) (c : Core) (log : List Nat) : Core × List Nat × Bool :=
  let e := c.ev
  let c0 : Core :=
    { c with ev := { e with target := some d, currentTarget := none,
                            phase := Phase.idle, propStopped := false,
                            immStopped := false, defaultPrevented := false } }
  let ancestors := (pathFrom parent fuel d).drop 1
  let (c1, log1) := captureLoop beh ancestors.reverse (c0, log)
  let (c2, log2) := fireNode beh d false (setCur c1 (some d) Phase.atTarget, log1)
  let (c3, log3) :=
    if c2.ev.bubbles && !c2.ev.propStopped then bubbleLoop beh ancestors (c2, log2)
    else (c2, log2)
  let c4 := setCur c3 none Phase.idle
  (c4, log3, !c4.ev.defaultPrevented)

/-! ### The `willTrigger` tree recursion (spec §4.4, `will_trigger` in
`eventdispatcher.rs`) -/

/-- Modelled from the spec: the Dispatch List's `has_event_listener`
(`contains`) — true iff either phase bucket for the type is non-empty.
The Dispatch List is modelled as a map from type name to its pair of
phase buckets (capture bucket first). -/
def hasListenerDL (d : String → List Entry × List Entry) (ty : String) : Bool :=
  !(d ty).1.isEmpty || !(d ty).2.isEmpty

/-- A tree node as seen by `will_trigger`: its own Dispatch List
together with its parent chain.  The parent field embeds the collaborator
lookup `parent_of` (composed with the `target` slot indirection the
source applies before the lookup). -/
inductive TNode where
  | mk : (String → List Entry × List Entry) → Option TNode → TNode

/-- The node's Dispatch List. -/
def TNode.dl : TNode → String → List Entry × List Entry
  | .mk d _ => d

/-- The node's parent, as `parent_of` would report it. -/
def TNode.parentNode : TNode → Option TNode
  | .mk _ p => p

/-- `EventDispatcher.willTrigger`, as in `eventdispatcher.rs`: report
true when the node's own Dispatch List has a listener for the type,
otherwise recurse on the parent; report false at a parentless node with
no matching listener. -/
def will_trigger : TNode → String → Bool
  | .mk d none, ty => hasListenerDL d ty
  | .mk d (some q), ty => hasListenerDL d ty || will_trigger q ty

/-- The ancestor chain of a node: the node itself followed by the chain
of its parent. -/
def TNode.chain : TNode → List TNode
  | .mk d none => [TNode.mk d none]
  | .mk d (some q) => TNode.mk d (some q) :: TNode.chain q

/-- The parentless node the ancestor chain terminates at. -/
def TNode.lastNode : TNode → TNode
  | .mk d none => TNode.mk d none
  | .mk _ (some q) => TNode.lastNode q

/-- Concrete tree for the spec's `willTrigger` example: a parentless
ancestor with a listener for `"x"` only, and a listenerless leaf below
it. -/
def ancNode : TNode :=
  TNode.mk (fun t => if t = "x" then ([], [⟨0, 5⟩]) else ([], [])) none

/-- The listenerless leaf under `ancNode`. -/
def leafNode : TNode :=
  TNode.mk (fun _ => ([], [])) (some ancNode)

/-! ### Concrete dispatch scenarios -/

/-- The three-node tree A→B→C of the spec's dispatch example: node 0 is
A (the root), node 1 is B, node 2 is C. -/
def treeParent : Nat → Option Nat
  | 0 => none
  | 1 => some 0
  | 2 => some 1
  | _ => none

/-- Listener placement for the dispatch example: a capture listener
(callback 10) on A, bubble listeners on B (11) and C (12). -/
def c2lists : Nat → List Entry × List Entry
  | 0 => ([⟨0, 10⟩], [])
  | 1 => ([], [⟨0, 11⟩])
  | 2 => ([], [⟨0, 12⟩])
  | _ => ([], [])

/-- Variant placement where A additionally holds a bubble listener
(callback 13), to exhibit what stopping propagation at B suppresses. -/
def c2listsA : Nat → List Entry × List Entry
  | 0 => ([⟨0, 10⟩], [⟨0, 13⟩])
  | 1 => ([], [⟨0, 11⟩])
  | 2 => ([], [⟨0, 12⟩])
  | _ => ([], [])

/-- A bubbling, cancelable event before dispatch. -/
def evBubbling : EvState :=
  { bubbles := true, cancelable := true, target := none, currentTarget := none,
    phase := Phase.idle, propStopped := false, immStopped := false,
    defaultPrevented := false }

/-- Listeners with no side effect. -/
def noopBeh : Behavior := fun _ c => c

/-- B's listener (callback 11) calls `stopPropagation`; everyone else is
inert. -/
def stopAtB : Behavior := fun cb c =>
  if cb = 11 then { c with ev := { c.ev with propStopped := true } } else c

/-- Single node (0) with two bubble listeners (1 and 2), for the
snapshot-rule scenario. -/
def c7lists : Nat → List Entry × List Entry
  | 0 => ([], [⟨0, 1⟩, ⟨0, 2⟩])
  | _ => ([], [])

/-- A parentless world. -/
def noParent : Nat → Option Nat := fun _ => none

/-- Callback 1 removes itself from node 0's bubble bucket when fired;
everyone else is inert. -/
def selfRemoveBeh : Behavior := fun cb c =>
  if cb = 1 then
    { c with lists := fun n =>
        if n = 0 then ((c.lists 0).1, removeListener (c.lists 0).2 1) else c.lists n }
  else c

/-! ### The script-facing entry points (`eventdispatcher.rs`)

One `EventDispatcher` object (`this`) with its private slots, its
dispatch-list storage, an event-object heap and the broadcast registry
restricted to this object. -/

/-- A script value, as far as the entry points inspect one: the
primitives, callable objects, Event objects (pointing into the event
heap) and other plain objects, mirroring what `as_object` /
`as_callable` / `as_event` distinguish. -/
inductive Value where
  | undefined
  | null
  | vbool : Bool → Value
  | vint : Int → Value
  | vstr : String → Value
  | vcallable : Nat → Value
  | vevent : Nat → Value
  | vplain : Nat → Value
deriving Repr, DecidableEq

/-- The error kinds the entry points raise. -/
inductive Err where
  | invalidListener
  | invalidEvent
deriving Repr, DecidableEq

/-- Modelled from the spec: string coercion (an out-of-scope
collaborator of the value system). -/
def coerceToString : Value → String
  | .undefined => "undefined"
  | .null => "null"
  | .vbool b => if b then "true" else "false"
  | .vint i => toString i
  | .vstr s => s
  | .vcallable _ => "[callable]"
  | .vevent _ => "[object Event]"
  | .vplain _ => "[object Object]"

/-- Modelled from the spec: boolean coercion (collaborator). -/
def coerceToBoolean : Value → Bool
  | .undefined => false
  | .null => false
  | .vbool b => b
  | .vint i => decide (i ≠ 0)
  | .vstr s => decide (s ≠ "")
  | _ => true

/-- Wrap an integer into signed 32-bit range. -/
def wrap32 (i : Int) : Int :=
  (i + 2 ^ 31) % 2 ^ 32 - 2 ^ 31

/-- Modelled from the spec: `coerce_to_i32` (collaborator). -/
def coerceToI32 : Value → Int
  | .vint i => wrap32 i
  | .vbool b => if b then 1 else 0
  | _ => 0

/-- Modelled from the spec: `as_callable` — succeeds exactly on a
callable object, otherwise the InvalidListener rejection. -/
def asCallable : Value → Except Err Nat
  | .vcallable f => .ok f
  | _ => .error .invalidListener

/-- Is the value an Event-capable object (`as_object` then `as_event`
both succeed)? -/
def isEventValue : Value → Bool
  | .vevent _ => true
  | _ => false

/-- A Dispatch List with no entries. -/
def emptyDL : String → List Entry × List Entry :=
  fun _ => ([], [])

/-- Modelled from the spec: the Dispatch List's `add_event_listener` —
delegate `insert` to the phase bucket selected by `useCapture`. -/
def dlAdd (d : String → List Entry × List Entry) (ty : String) (p : Int) (cb : Nat)
    (uc : Bool) : String → List Entry × List Entry :=
  fun t =>
    if t = ty then
      if uc then (insertListener (d ty).1 p cb, (d ty).2)
      else ((d ty).1, insertListener (d ty).2 p cb)
    else d t

/-- Modelled from the spec: the Dispatch List's `remove_event_listener`
— delegate `remove` to the phase bucket selected by `useCapture`. -/
def dlRemove (d : String → List Entry × List Entry) (ty : String) (cb : Nat)
    (uc : Bool) : String → List Entry × List Entry :=
  fun t =>
    if t = ty then
      if uc then (removeListener (d ty).1 cb, (d ty).2)
      else ((d ty).1, removeListener (d ty).2 cb)
    else d t

/-- An Event object on the heap: its type name and its state. -/
structure EvObj where
  etype : String
  st : EvState
deriving Repr, DecidableEq

/-- The observable state around one `EventDispatcher` object: its
`target` and `dispatch_list` private slots (the latter an optional
handle into the dispatch-list heap, so that "at most one list is ever
attached" is a statement about the handle), the event-object heap, the
broadcast registry restricted to this object, and the log of fired
listeners. -/
structure EDState where
  targetSlot : Option Value
  dlSlot : Option Nat
  dlHeap : Nat → (String → List Entry × List Entry)
  nextHandle : Nat
  events : Nat → EvObj
  broadcastTypes : List String
  firedLog : List Nat

/-- Point update of a function-modelled heap. -/
def updateFn {α : Type} (f : Nat → α) (k : Nat) (v : α) : Nat → α :=
  fun n => if n = k then v else f n

/-- `EventDispatcher`'s instance constructor (`instance_init` in
`eventdispatcher.rs`): stores argument 0 (defaulting to null) in the
`target` slot and deliberately leaves the `dispatch_list` slot alone. -/
def instance_init (st : EDState) (args : List Value) : EDState :=
  { st with targetSlot := some (args.getD 0 Value.null) }

/-- The `dispatch_list` helper of `eventdispatcher.rs`: return the
attached dispatch list, lazily allocating and attaching an empty one
when the slot is not yet an object. -/
def dispatch_list (st : EDState) : Nat × EDState :=
  match st.dlSlot with
  | some h => (h, st)
  | none =>
    (st.nextHandle,
     { st with dlSlot := some st.nextHandle,
               dlHeap := updateFn st.dlHeap st.nextHandle emptyDL,
               nextHandle := st.nextHandle + 1 })

/-- Modelled from the spec: `Avm2::register_broadcast_listener` (outside
the extracted sources; only its call site is) — record the (object,
type) pair in the process-wide Broadcast Registry, which only grows and
holds each pair at most once.  Restricted here to the one registering
object, so the registry is the set of recorded type names. -/
def register_broadcast_listener (l : List String) (ty : String) : List String :=
  if ty ∈ l then l else ty :: l

/-- The effective listener buckets of the object for a type: empty when
no dispatch list is attached. -/
def listsOf (st : EDState) (ty : String) : List Entry × List Entry :=
  match st.dlSlot with
  | some h => st.dlHeap h ty
  | none => ([], [])

/-- `EventDispatcher.addEventListener` (`add_event_listener` in
`eventdispatcher.rs`): fetch/create the dispatch list, coerce the type,
require a callable listener, coerce `useCapture` and `priority`, insert,
and finally call `register_broadcast_listener` — unconditionally, for
capturing and non-capturing registrations alike. -/
def add_event_listener (st : EDState) (args : List Value) : EDState × Except Err Unit :=
  let r := dispatch_list st
  let h := r.1
  let st1 := r.2
  let ty := coerceToString (args.getD 0 Value.undefined)
  match asCallable (args.getD 1 Value.undefined) with
  | .error e => (st1, .error e)
  | .ok cb =>
    let uc := coerceToBoolean (args.getD 2 (Value.vbool false))
    let p := coerceToI32 (args.getD 3 (Value.vint 0))
    let st2 := { st1 with dlHeap := updateFn st1.dlHeap h (dlAdd (st1.dlHeap h) ty p cb uc) }
    ({ st2 with broadcastTypes := register_broadcast_listener st2.broadcastTypes ty },
     .ok ())

/-- `EventDispatcher.removeEventListener` (`remove_event_listener` in
`eventdispatcher.rs`). -/
def remove_event_listener (st : EDState) (args : List Value) : EDState × Except Err Unit :=
  let r := dispatch_list st
  let h := r.1
  let st1 := r.2
  let ty := coerceToString (args.getD 0 Value.undefined)
  match asCallable (args.getD 1 Value.undefined) with
  | .error e => (st1, .error e)
  | .ok cb =>
    let uc := coerceToBoolean (args.getD 2 (Value.vbool false))
    ({ st1 with dlHeap := updateFn st1.dlHeap h (dlRemove (st1.dlHeap h) ty cb uc) },
     .ok ())

/-- `EventDispatcher.hasEventListener` (`has_event_listener` in
`eventdispatcher.rs`). -/
def has_event_listener (st : EDState) (args : List Value) : EDState × Except Err Bool :=
  let r := dispatch_list st
  let h := r.1
  let st1 := r.2
  let ty := coerceToString (args.getD 0 Value.undefined)
  (st1, .ok (hasListenerDL (st1.dlHeap h) ty))

/-- `EventDispatcher.willTrigger` (`will_trigger` in
`eventdispatcher.rs`), specialized to a parentless dispatcher: the
`parent_of` collaborator reports no parent, so the recursion stops after
the object's own check.  (The recursion over a full parent chain is
`RuffleEvents.will_trigger` on `TNode` above.) -/
def will_trigger_entry (st : EDState) (args : List Value) : EDState × Except Err Bool :=
  let r := dispatch_list st
  let h := r.1
  let st1 := r.2
  let ty := coerceToString (args.getD 0 Value.undefined)
  if hasListenerDL (st1.dlHeap h) ty then (st1, .ok true)
  else (st1, .ok false)

/-- Modelled from the spec: `dispatch_event_internal` as reachable from
this single parentless object (id 0) — reset the event's dispatch-time
state, set its target, fire the at-target (non-capture) bucket from a
snapshot, reset `currentTarget`/`phase`, and report whether default
behaviour remains un-cancelled.  (The full tree walk is
`dispatchEventCore` above.) -/
def dispatchInternalEntry (st : EDState) (eid : Nat) : EDState × Except Err Bool :=
  let eo := st.events eid
  let es := eo.st
  let e1 : EvState :=
    { es with target := some 0, currentTarget := none, phase := Phase.idle,
              propStopped := false, immStopped := false, defaultPrevented := false }
  let fired := ((listsOf st eo.etype).2).map Entry.callback
  let e2 : EvState := { e1 with currentTarget := none, phase := Phase.idle }
  ({ st with events := updateFn st.events eid ⟨eo.etype, e2⟩,
             firedLog := st.firedLog ++ fired },
   .ok !e2.defaultPrevented)

/-- `EventDispatcher.dispatchEvent` (`dispatch_event` in
`eventdispatcher.rs`): reject any argument that is not an Event-capable
object with InvalidEvent before touching anything, else run the internal
dispatch. -/
def dispatch_event (st : EDState) (args : List Value) : EDState × Except Err Bool :=
  match args.getD 0 Value.undefined with
  | .vevent eid => dispatchInternalEntry st eid
  | _ => (st, .error .invalidEvent)

/-- A quiescent event value. -/
def ev0 : EvState :=
  { bubbles := false, cancelable := false, target := none, currentTarget := none,
    phase := Phase.idle, propStopped := false, immStopped := false,
    defaultPrevented := false }

/-- A freshly allocated dispatcher: no slots set, nothing registered. -/
def ed0 : EDState :=
  { targetSlot := none, dlSlot := none, dlHeap := fun _ => emptyDL,
    nextHandle := 0, events := fun _ => ⟨"event", ev0⟩,
    broadcastTypes := [], firedLog := [] }

/-- Priorities [5, 1, 5, 0] registered in that order (callbacks 0, 1, 2,
3 respectively) through `insertListener`. -/
def exampleList : List Entry :=
  insertListener (insertListener (insertListener (insertListener [] 5 0) 1 1) 5 2) 0 3

/-- A listenerless world with a quiescent bubbling event, for firing the
example list. -/
def exCore : Core := ⟨fun _ => ([], []), evBubbling⟩

/-! ### Lemmas and claim theorems -/

theorem mem_insertEntry {e z : Entry} : ∀ {l : List Entry},
    z ∈ insertEntry e l → z = e ∨ z ∈ l := by
  intro l
  induction l with
  | nil =>
    intro h
    simp [insertEntry] at h
    exact Or.inl h
  | cons x xs ih =>
    intro h
    by_cases hx : x.priority < e.priority
    · simp [insertEntry, hx] at h
      rcases h with h | h | h
      · exact Or.inl h
      · exact Or.inr (by simp [h])
      · exact Or.inr (by simp [h])
    · simp [insertEntry, hx] at h
      rcases h with h | h
      · exact Or.inr (by simp [h])
      · rcases ih h with h | h
        · exact Or.inl h
        · exact Or.inr (by simp [h])

theorem sortedDesc_insertEntry (e : Entry) :
    ∀ {l : List Entry}, SortedDesc l → SortedDesc (insertEntry e l) := by
  intro l
  induction l with
  | nil =>
    intro _
    simp [insertEntry, SortedDesc]
  | cons x xs ih =>
    intro h
    rw [SortedDesc, List.pairwise_cons] at h
    obtain ⟨hx, hxs⟩ := h
    by_cases hlt : x.priority < e.priority
    · rw [insertEntry]
      simp only [hlt, if_true]
      rw [SortedDesc, List.pairwise_cons]
      constructor
      · intro z hz
        rcases List.mem_cons.mp hz with hz | hz
        · subst hz
          exact le_of_lt hlt
        · exact le_trans (hx z hz) (le_of_lt hlt)
      · exact List.pairwise_cons.mpr ⟨hx, hxs⟩
    · rw [insertEntry]
      simp only [hlt, if_false]
      rw [SortedDesc, List.pairwise_cons]
      constructor
      · intro z hz
        rcases mem_insertEntry hz with hz | hz
        · subst hz
          exact le_of_not_lt hlt
        · exact hx z hz
      · exact ih hxs

theorem sortedDesc_insertListener (l : List Entry) (p : Int) (cb : Nat)
    (h : SortedDesc l) : SortedDesc (insertListener l p cb) := by
  rw [insertListener]
  split
  · exact h
  · exact sortedDesc_insertEntry _ h

theorem sortedDesc_removeListener (l : List Entry) (cb : Nat)
    (h : SortedDesc l) : SortedDesc (removeListener l cb) :=
  List.Pairwise.sublist (List.filter_sublist l) h

/-- Stable position of `insertEntry`: the new entry lands after every
entry of greater-or-equal priority and before the rest of the list. -/
theorem insertEntry_eq_takeWhile (e : Entry) : ∀ (l : List Entry),
    insertEntry e l =
      l.takeWhile (fun x => decide (e.priority ≤ x.priority)) ++
        e :: l.dropWhile (fun x => decide (e.priority ≤ x.priority)) := by
  intro l
  induction l with
  | nil => simp [insertEntry]
  | cons x xs ih =>
    by_cases hlt : x.priority < e.priority
    · have hnot : ¬ e.priority ≤ x.priority := not_le_of_lt hlt
      simp [insertEntry, hlt, List.takeWhile_cons, List.dropWhile_cons, hnot]
    · have hle : e.priority ≤ x.priority := le_of_not_lt hlt
      simp [insertEntry, hlt, List.takeWhile_cons, List.dropWhile_cons, hle, ih]

theorem insertListener_duplicate (l : List Entry) (p : Int) (cb : Nat)
    (h : ∃ e ∈ l, e.callback = cb) : insertListener l p cb = l := by
  rw [insertListener]
  have : l.any (fun e => e.callback == cb) = true := by
    rw [List.any_eq_true]
    obtain ⟨e, he, hcb⟩ := h
    exact ⟨e, he, by simp [hcb]⟩
  simp [this]

theorem removeListener_absent (l : List Entry) (cb : Nat)
    (h : ∀ e ∈ l, ¬ e.callback = cb) : removeListener l cb = l := by
  rw [removeListener]
  apply List.filter_eq_self.2
  intro e he
  simp [h e he]

/-- The cross-cutting snapshot property: whatever a behaviour does to
the listener lists (or the event flags), the callbacks a firing pass
appends to the log form a prefix of the snapshot it was given at entry. -/
theorem fireList_log_take (beh : Behavior) :
    ∀ (s : List Entry) (c : Core) (log : List Nat),
    ∃ k, (fireList beh s (c, log)).2 = log ++ (s.take k).map Entry.callback := by
  intro s
  induction s with
  | nil =>
    intro c log
    exact ⟨0, by simp [fireList]⟩
  | cons e rest ih =>
    intro c log
    by_cases him : c.ev.immStopped
    · exact ⟨0, by simp [fireList, him]⟩
    · obtain ⟨k, hk⟩ := ih (beh e.callback c) (log ++ [e.callback])
      refine ⟨k + 1, ?_⟩
      simp [fireList, him, hk]

/-- When the behaviours do not touch the event flags (pure listener-list
mutation, as in re-entrant add/remove), every entry of the snapshot
fires, in snapshot order. -/
theorem fireList_log_of_ev_preserved (beh : Behavior)
    (hbeh : ∀ cb c, (beh cb c).ev = c.ev) :
    ∀ (s : List Entry) (c : Core) (log : List Nat),
    c.ev.immStopped = false →
    (fireList beh s (c, log)).2 = log ++ s.map Entry.callback := by
  intro s
  induction s with
  | nil =>
    intro c log _
    simp [fireList]
  | cons e rest ih =>
    intro c log him
    have him2 : (beh e.callback c).ev.immStopped = false := by
      rw [hbeh]; exact him
    simp [fireList, him, ih (beh e.callback c) (log ++ [e.callback]) him2]

theorem selfRemoveBeh_ev (cb : Nat) (c : Core) : (selfRemoveBeh cb c).ev = c.ev := by
  rw [selfRemoveBeh]
  split <;> rfl

/-- `will_trigger` answers exactly "some node of the ancestor chain has
a matching listener". -/
theorem will_trigger_eq_chainAux : ∀ (n : TNode) (ty : String),
    will_trigger n ty = (TNode.chain n).any (fun m => hasListenerDL m.dl ty)
  | .mk d none, ty => by
    simp [will_trigger, TNode.chain, TNode.dl]
  | .mk d (some q), ty => by
    simp [will_trigger, TNode.chain, TNode.dl, will_trigger_eq_chainAux q ty]

/-- The chain terminates at a parentless node, and that node is on the
chain. -/
theorem chain_lastAux : ∀ (n : TNode),
    (TNode.lastNode n).parentNode = none ∧ TNode.lastNode n ∈ TNode.chain n
  | .mk d none => by
    simp [TNode.lastNode, TNode.parentNode, TNode.chain]
  | .mk d (some q) => by
    obtain ⟨h1, h2⟩ := chain_lastAux q
    exact ⟨by simpa [TNode.lastNode] using h1, by simp [TNode.lastNode, TNode.chain, h2]⟩

theorem dispatch_list_of_some {st : EDState} {h : Nat} (hs : st.dlSlot = some h) :
    dispatch_list st = (h, st) := by
  rw [dispatch_list, hs]

theorem dispatch_list_of_none {st : EDState} (hs : st.dlSlot = none) :
    dispatch_list st =
      (st.nextHandle,
       { st with dlSlot := some st.nextHandle,
                 dlHeap := updateFn st.dlHeap st.nextHandle emptyDL,
                 nextHandle := st.nextHandle + 1 }) := by
  rw [dispatch_list, hs]

theorem dispatch_list_slot (st : EDState) :
    (dispatch_list st).2.dlSlot = some (dispatch_list st).1 := by
  rcases hs : st.dlSlot with _ | h
  · rw [dispatch_list_of_none hs]
  · rw [dispatch_list_of_some hs]
    exact hs

theorem dispatch_list_broadcast (st : EDState) :
    (dispatch_list st).2.broadcastTypes = st.broadcastTypes := by
  rcases hs : st.dlSlot with _ | h
  · rw [dispatch_list_of_none hs]
  · rw [dispatch_list_of_some hs]

theorem dispatch_list_heap_at (st : EDState) (ty : String) :
    (dispatch_list st).2.dlHeap (dispatch_list st).1 ty = listsOf st ty := by
  rcases hs : st.dlSlot with _ | h
  · rw [dispatch_list_of_none hs]
    simp [updateFn, listsOf, hs, emptyDL]
  · rw [dispatch_list_of_some hs]
    simp [listsOf, hs]

theorem dispatch_list_listsOf (st : EDState) (ty : String) :
    listsOf (dispatch_list st).2 ty = listsOf st ty := by
  rw [listsOf, dispatch_list_slot st]
  exact dispatch_list_heap_at st ty

theorem mem_register_broadcast_listener (l : List String) (ty : String) :
    ty ∈ register_broadcast_listener l ty := by
  rw [register_broadcast_listener]
  split
  · assumption
  · exact List.mem_cons_self ty l

theorem self_mem_insertEntry (e : Entry) : ∀ (l : List Entry), e ∈ insertEntry e l := by
  intro l
  induction l with
  | nil => simp [insertEntry]
  | cons x xs ih =>
    rw [insertEntry]
    split
    · exact List.mem_cons_self e (x :: xs)
    · exact List.mem_cons_of_mem x ih

theorem insertListener_mem_self (l : List Entry) (p : Int) (cb : Nat) :
    ∃ e ∈ insertListener l p cb, e.callback = cb := by
  rw [insertListener]
  split
  · rename_i hany
    obtain ⟨e, he, hb⟩ := List.any_eq_true.mp hany
    exact ⟨e, he, by simpa using hb⟩
  · exact ⟨⟨p, cb⟩, self_mem_insertEntry _ l, rfl⟩

/-- C2: for the tree A→B→C (A = node 0, B = 1, C = 2) and a bubbling,
cancelable event dispatched on C, with a capture listener on A (callback
10), a bubble listener on B (11) and a bubble listener on C (12), the
firing order is [A-capture, C-target, B-bubble] = [10, 12, 11]; when B's
listener stops propagation the order is unchanged (A's capture listener
already fired), and in the variant where A also holds a bubble listener
(13), stopping at B suppresses exactly the firing above B during
bubbling. -/
theorem claim2_dispatch_order :
    (dispatchEventCore noopBeh treeParent 10 2 ⟨c2lists, evBubbling⟩ []).2.1
        = [10, 12, 11] ∧
    (dispatchEventCore stopAtB treeParent 10 2 ⟨c2lists, evBubbling⟩ []).2.1
        = [10, 12, 11] ∧
    (dispatchEventCore noopBeh treeParent 10 2 ⟨c2listsA, evBubbling⟩ []).2.1
        = [10, 12, 11, 13] ∧
    (dispatchEventCore stopAtB treeParent 10 2 ⟨c2listsA, evBubbling⟩ []).2.1
        = [10, 12, 11] :=
  ⟨by decide, by decide, by decide, by decide⟩

/-- C4: every listener-list operation preserves the descending-priority
order; `insertEntry` places the new entry after every entry of
greater-or-equal priority (insertion-stable position); and the
priorities [5, 1, 5, 0] registered in that order produce the firing
order [first-5, second-5, 1, 0] (callbacks [0, 2, 1, 3]). -/
theorem claim4_sorted_stable :
    (∀ (l : List Entry) (p : Int) (cb : Nat),
        SortedDesc l → SortedDesc (insertListener l p cb)) ∧
    (∀ (l : List Entry) (cb : Nat),
        SortedDesc l → SortedDesc (removeListener l cb)) ∧
    (∀ (e : Entry) (l : List Entry),
        insertEntry e l =
          l.takeWhile (fun x => decide (e.priority ≤ x.priority)) ++
            e :: l.dropWhile (fun x => decide (e.priority ≤ x.priority))) ∧
    exampleList.map Entry.callback = [0, 2, 1, 3] ∧
    (fireList noopBeh exampleList (exCore, [])).2 = [0, 2, 1, 3] :=
  ⟨sortedDesc_insertListener, sortedDesc_removeListener, insertEntry_eq_takeWhile,
   by decide, by decide⟩

/-- Witness for C4 at concrete inputs: the example list is sorted, and
both operations keep it sorted. -/
theorem claim4_sorted_stable_witness :
    SortedDesc exampleList ∧ SortedDesc (insertListener exampleList 3 9) ∧
    SortedDesc (removeListener exampleList 1) :=
  ⟨by decide, claim4_sorted_stable.1 exampleList 3 9 (by decide),
   claim4_sorted_stable.2.1 exampleList 1 (by decide)⟩

/-- C6: `willTrigger` answers exactly "the object itself or some node
reached by following the parent relation has a matching listener"; the
parent chain always terminates at a parentless node (which is on the
chain); and concretely, a listenerless leaf below an ancestor holding a
listener for "x" reports true for "x" and false for "y". -/
theorem claim6_will_trigger :
    (∀ (n : TNode) (ty : String),
        will_trigger n ty = (TNode.chain n).any (fun m => hasListenerDL m.dl ty)) ∧
    (∀ n : TNode,
        (TNode.lastNode n).parentNode = none ∧ TNode.lastNode n ∈ TNode.chain n) ∧
    will_trigger leafNode "x" = true ∧
    will_trigger leafNode "y" = false :=
  ⟨will_trigger_eq_chainAux, chain_lastAux, by decide, by decide⟩

/-- C7: a firing pass only ever appends (a prefix of) the snapshot taken
at its start, whatever the listeners do to the lists; when listeners
only mutate lists (never the event flags) the whole snapshot fires; and
concretely, a listener (callback 1) that removes itself still completes
its pass ([1, 2] fires, callback 1 is gone from the bucket afterwards)
while a second dispatch fires only [2]. -/
theorem claim7_snapshot :
    (∀ (beh : Behavior) (s : List Entry) (c : Core) (log : List Nat),
        ∃ k, (fireList beh s (c, log)).2 = log ++ (s.take k).map Entry.callback) ∧
    (∀ (beh : Behavior), (∀ cb c, (beh cb c).ev = c.ev) →
        ∀ (s : List Entry) (c : Core) (log : List Nat), c.ev.immStopped = false →
        (fireList beh s (c, log)).2 = log ++ s.map Entry.callback) ∧
    (dispatchEventCore selfRemoveBeh noParent 10 0 ⟨c7lists, evBubbling⟩ []).2.1
        = [1, 2] ∧
    ((dispatchEventCore selfRemoveBeh noParent 10 0 ⟨c7lists, evBubbling⟩ []).1.lists 0).2
        = [⟨0, 2⟩] ∧
    (dispatchEventCore selfRemoveBeh noParent 10 0
        (dispatchEventCore selfRemoveBeh noParent 10 0 ⟨c7lists, evBubbling⟩ []).1
        (dispatchEventCore selfRemoveBeh noParent 10 0 ⟨c7lists, evBubbling⟩ []).2.1).2.1
        = [1, 2, 2] :=
  ⟨fireList_log_take, fireList_log_of_ev_preserved,
   by decide, by decide, by decide⟩

/-- Witness for C7 at a concrete input: the self-removing behaviour
preserves the event flags, so the whole two-entry snapshot fires. -/
theorem claim7_snapshot_witness :
    (fireList selfRemoveBeh [⟨0, 1⟩, ⟨0, 2⟩] (⟨c7lists, evBubbling⟩, [])).2
      = [] ++ [Entry.mk 0 1, Entry.mk 0 2].map Entry.callback :=
  claim7_snapshot.2.1 selfRemoveBeh selfRemoveBeh_ev [⟨0, 1⟩, ⟨0, 2⟩]
    ⟨c7lists, evBubbling⟩ [] rfl

/-- C5: re-registering an already-present callback in the same phase
bucket is a no-op (the whole bucket, hence each entry's priority and
position, is unchanged even for a different priority); the same holds
one level up through the Dispatch List's `add_event_listener`; and
concretely, registering callback 7 at priority 5 and then again at
priority 9 through the script entry point leaves the single
priority-5 entry in place. -/
theorem claim5_idempotent :
    (∀ (l : List Entry) (p : Int) (cb : Nat),
        (∃ e ∈ l, e.callback = cb) → insertListener l p cb = l) ∧
    (∀ (d : String → List Entry × List Entry) (ty : String) (p p' : Int)
        (cb : Nat) (uc : Bool) (t : String),
        dlAdd (dlAdd d ty p cb uc) ty p' cb uc t = dlAdd d ty p cb uc t) ∧
    listsOf (add_event_listener ed0
        [Value.vstr "evt", Value.vcallable 7, Value.vbool false, Value.vint 5]).1 "evt"
      = ([], [⟨5, 7⟩]) ∧
    listsOf (add_event_listener
        (add_event_listener ed0
          [Value.vstr "evt", Value.vcallable 7, Value.vbool false, Value.vint 5]).1
        [Value.vstr "evt", Value.vcallable 7, Value.vbool false, Value.vint 9]).1 "evt"
      = ([], [⟨5, 7⟩]) := by
  refine ⟨insertListener_duplicate, ?_, by decide, by decide⟩
  intro d ty p p' cb uc t
  have h2 : ∀ (l : List Entry), insertListener (insertListener l p cb) p' cb
      = insertListener l p cb :=
    fun l => insertListener_duplicate _ p' cb (insertListener_mem_self l p cb)
  by_cases ht : t = ty
  · subst ht
    cases uc <;> simp [dlAdd, h2]
  · simp [dlAdd, ht]

/-- Witness for C5 at a concrete input: callback 1 is already in the
example list, so re-inserting it at priority 99 is a no-op. -/
theorem claim5_idempotent_witness :
    (∃ e ∈ exampleList, e.callback = 1) ∧
    insertListener exampleList 99 1 = exampleList :=
  ⟨⟨⟨1, 1⟩, by decide, rfl⟩,
   claim5_idempotent.1 exampleList 99 1 ⟨⟨1, 1⟩, by decide, rfl⟩⟩

/-- C1 fails as stated: `add_event_listener` calls
`register_broadcast_listener` unconditionally, so even a registration
with `useCapture = true` records the (object, type) pair in the
Broadcast Registry.  Starting from a fresh dispatcher with an empty
registry, one capturing registration for "evt" puts "evt" in the
registry. -/
theorem claim1_counterexample :
    ed0.broadcastTypes = [] ∧
    "evt" ∈ (add_event_listener ed0
        [Value.vstr "evt", Value.vcallable 7, Value.vbool true]).1.broadcastTypes :=
  ⟨rfl, by decide⟩

/-- C1 amended: every successful `addEventListener` call records the
(object, type) pair in the Broadcast Registry, for capturing and
non-capturing registrations alike; a rejected call (non-callable
listener) records nothing. -/
theorem claim1_broadcast_amended :
    (∀ (st : EDState) (tyv lv ucv pv : Value) (cb : Nat),
        asCallable lv = Except.ok cb →
        coerceToString tyv ∈
          (add_event_listener st [tyv, lv, ucv, pv]).1.broadcastTypes) ∧
    (∀ (st : EDState) (args : List Value),
        asCallable (args.getD 1 Value.undefined) = Except.error Err.invalidListener →
        (add_event_listener st args).1.broadcastTypes = st.broadcastTypes) := by
  constructor
  · intro st tyv lv ucv pv cb hc
    have h1 : [tyv, lv, ucv, pv].getD 1 Value.undefined = lv := rfl
    simp only [add_event_listener, h1, hc]
    exact mem_register_broadcast_listener _ _
  · intro st args hc
    simp only [add_event_listener, hc]
    exact dispatch_list_broadcast st

/-- Witness for C1's amended statement at a concrete input: a
non-capturing registration of callable 3 for "e" is recorded. -/
theorem claim1_broadcast_amended_witness :
    asCallable (Value.vcallable 3) = Except.ok 3 ∧
    "e" ∈ (add_event_listener ed0
        [Value.vstr "e", Value.vcallable 3, Value.vbool false, Value.vint 2]).1.broadcastTypes :=
  ⟨rfl, claim1_broadcast_amended.1 ed0 (Value.vstr "e") (Value.vcallable 3)
      (Value.vbool false) (Value.vint 2) 3 rfl⟩

/-- C3: `dispatchEvent` with any argument that is not an Event-capable
object — no argument, a primitive, a callable, or a plain object —
returns the InvalidEvent error with the state (listener lists, event
heap, fired-listener log) completely untouched. -/
theorem claim3_invalid_event :
    ∀ (st : EDState) (args : List Value),
      isEventValue (args.getD 0 Value.undefined) = false →
      dispatch_event st args = (st, Except.error Err.invalidEvent) := by
  intro st args h
  rw [dispatch_event]
  rcases hv : args.getD 0 Value.undefined with _ | _ | b | i | s | f | eid | o
  · rfl
  · rfl
  · rfl
  · rfl
  · rfl
  · rfl
  · rw [hv] at h
    simp [isEventValue] at h
  · rfl

/-- Witness for C3 at a concrete input: calling `dispatchEvent` with no
argument at all fails with InvalidEvent and changes nothing. -/
theorem claim3_invalid_event_witness :
    dispatch_event ed0 [] = (ed0, Except.error Err.invalidEvent) :=
  claim3_invalid_event ed0 [] rfl

theorem listsOf_update (st1 : EDState) (h : Nat)
    (d : String → List Entry × List Entry) (hs : st1.dlSlot = some h) (t : String) :
    listsOf { st1 with dlHeap := updateFn st1.dlHeap h d } t = d t := by
  simp [listsOf, hs, updateFn]

theorem dlRemove_listsOf_absent (st : EDState) (ty : String) (cb : Nat) (uc : Bool)
    (t : String)
    (hcap : ∀ e ∈ (listsOf st ty).1, ¬ e.callback = cb)
    (hbub : ∀ e ∈ (listsOf st ty).2, ¬ e.callback = cb) :
    dlRemove ((dispatch_list st).2.dlHeap (dispatch_list st).1) ty cb uc t
      = listsOf st t := by
  simp only [dlRemove]
  by_cases ht : t = ty
  · subst ht
    rw [dispatch_list_heap_at st t]
    have h1 := removeListener_absent _ cb hcap
    have h2 := removeListener_absent _ cb hbub
    cases uc <;> simp [h1, h2]
  · simp only [ht, if_false]
    exact dispatch_list_heap_at st t

/-- C8: a non-callable listener argument makes both `addEventListener`
and `removeEventListener` fail with InvalidListener while every
listener list keeps its exact contents; removing an absent listener is
success-with-no-effect; and `hasEventListener` on a type with no
entries is success (`false`), never an error. -/
theorem claim8_listener_errors :
    (∀ (st : EDState) (args : List Value),
        asCallable (args.getD 1 Value.undefined) = Except.error Err.invalidListener →
        (add_event_listener st args).2 = Except.error Err.invalidListener ∧
        ∀ ty, listsOf (add_event_listener st args).1 ty = listsOf st ty) ∧
    (∀ (st : EDState) (args : List Value),
        asCallable (args.getD 1 Value.undefined) = Except.error Err.invalidListener →
        (remove_event_listener st args).2 = Except.error Err.invalidListener ∧
        ∀ ty, listsOf (remove_event_listener st args).1 ty = listsOf st ty) ∧
    (∀ (st : EDState) (ty : String) (cb : Nat) (ucv : Value),
        (∀ e ∈ (listsOf st ty).1, ¬ e.callback = cb) →
        (∀ e ∈ (listsOf st ty).2, ¬ e.callback = cb) →
        (remove_event_listener st [Value.vstr ty, Value.vcallable cb, ucv]).2
            = Except.ok () ∧
        ∀ t, listsOf (remove_event_listener st
            [Value.vstr ty, Value.vcallable cb, ucv]).1 t = listsOf st t) ∧
    (∀ (st : EDState) (tyv : Value),
        listsOf st (coerceToString tyv) = ([], []) →
        (has_event_listener st [tyv]).2 = Except.ok false) := by
  refine ⟨?_, ?_, ?_, ?_⟩
  · intro st args hc
    constructor
    · simp only [add_event_listener, hc]
    · intro ty
      simp only [add_event_listener, hc]
      exact dispatch_list_listsOf st ty
  · intro st args hc
    constructor
    · simp only [remove_event_listener, hc]
    · intro ty
      simp only [remove_event_listener, hc]
      exact dispatch_list_listsOf st ty
  · intro st ty cb ucv hcap hbub
    have e1 : remove_event_listener st [Value.vstr ty, Value.vcallable cb, ucv]
        = ({ (dispatch_list st).2 with
              dlHeap := updateFn ((dispatch_list st).2.dlHeap) (dispatch_list st).1
                (dlRemove ((dispatch_list st).2.dlHeap (dispatch_list st).1) ty cb
                  (coerceToBoolean ucv)) },
           Except.ok ()) := rfl
    constructor
    · rw [e1]
    · intro t
      rw [e1]
      rw [listsOf_update _ _ _ (dispatch_list_slot st) t]
      exact dlRemove_listsOf_absent st ty cb _ t hcap hbub
  · intro st tyv hempty
    have e1 : has_event_listener st [tyv]
        = ((dispatch_list st).2,
           Except.ok (hasListenerDL
             ((dispatch_list st).2.dlHeap (dispatch_list st).1)
             (coerceToString tyv))) := rfl
    rw [e1]
    simp [hasListenerDL, dispatch_list_heap_at st (coerceToString tyv), hempty]

/-- Witness for C8 at concrete inputs: a string listener is rejected
with InvalidListener, removing an unregistered callback from a fresh
dispatcher succeeds, and querying an unused type reports false. -/
theorem claim8_listener_errors_witness :
    (add_event_listener ed0 [Value.vstr "evt", Value.vstr "f"]).2
        = Except.error Err.invalidListener ∧
    (remove_event_listener ed0 [Value.vstr "evt", Value.vcallable 4]).2
        = Except.ok () ∧
    (has_event_listener ed0 [Value.vstr "evt"]).2 = Except.ok false :=
  ⟨(claim8_listener_errors.1 ed0 [Value.vstr "evt", Value.vstr "f"] rfl).1,
   (claim8_listener_errors.2.2.1 ed0 "evt" 4 Value.undefined
      (by intro e he; simp [listsOf, ed0] at he)
      (by intro e he; simp [listsOf, ed0] at he)).1,
   claim8_listener_errors.2.2.2 ed0 (Value.vstr "evt") rfl⟩

theorem add_event_listener_dlSlot (st : EDState) (args : List Value) :
    (add_event_listener st args).1.dlSlot = (dispatch_list st).2.dlSlot := by
  rw [add_event_listener]
  cases hc : asCallable (args.getD 1 Value.undefined) <;> simp [hc]

theorem remove_event_listener_dlSlot (st : EDState) (args : List Value) :
    (remove_event_listener st args).1.dlSlot = (dispatch_list st).2.dlSlot := by
  rw [remove_event_listener]
  cases hc : asCallable (args.getD 1 Value.undefined) <;> simp [hc]

theorem has_event_listener_state (st : EDState) (args : List Value) :
    (has_event_listener st args).1 = (dispatch_list st).2 := rfl

theorem will_trigger_entry_state (st : EDState) (args : List Value) :
    (will_trigger_entry st args).1 = (dispatch_list st).2 := by
  rw [will_trigger_entry]
  split <;> rfl

theorem dispatch_event_dlSlot (st : EDState) (args : List Value) :
    (dispatch_event st args).1.dlSlot = st.dlSlot := by
  rw [dispatch_event]
  rcases args.getD 0 Value.undefined <;> rfl

/-- C9: the instance constructor never touches the `dispatch_list`
slot; once a dispatch list is attached, every entry point keeps that
same list attached (so at most one is ever attached per object); and a
registration on an object without one attaches the freshly allocated
list. -/
theorem claim9_lazy_creation :
    (∀ (st : EDState) (args : List Value),
        (instance_init st args).dlSlot = st.dlSlot) ∧
    (∀ (st : EDState) (args : List Value) (h : Nat), st.dlSlot = some h →
        (add_event_listener st args).1.dlSlot = some h ∧
        (remove_event_listener st args).1.dlSlot = some h ∧
        (has_event_listener st args).1.dlSlot = some h ∧
        (will_trigger_entry st args).1.dlSlot = some h ∧
        (dispatch_event st args).1.dlSlot = some h) ∧
    (∀ (st : EDState) (args : List Value), st.dlSlot = none →
        (add_event_listener st args).1.dlSlot = some st.nextHandle) := by
  refine ⟨fun st args => rfl, ?_, ?_⟩
  · intro st args h hs
    have hd : (dispatch_list st).2.dlSlot = some h := by
      rw [dispatch_list_of_some hs]
      exact hs
    refine ⟨(add_event_listener_dlSlot st args).trans hd,
      (remove_event_listener_dlSlot st args).trans hd, ?_, ?_,
      (dispatch_event_dlSlot st args).trans hs⟩
    · rw [has_event_listener_state st args]
      exact hd
    · rw [will_trigger_entry_state st args]
      exact hd
  · intro st args hs
    have hd : (dispatch_list st).2.dlSlot = some st.nextHandle := by
      rw [dispatch_list_of_none hs]
    exact (add_event_listener_dlSlot st args).trans hd

/-- Witness for C9 at concrete inputs: construction leaves the slot
unset, a query on an attached-list object keeps the same handle, and a
first registration attaches handle 0. -/
theorem claim9_lazy_creation_witness :
    (instance_init ed0 []).dlSlot = none ∧
    (has_event_listener { ed0 with dlSlot := some 5 } []).1.dlSlot = some 5 ∧
    (add_event_listener ed0 [Value.vstr "evt", Value.vcallable 1]).1.dlSlot = some 0 :=
  ⟨(claim9_lazy_creation.1 ed0 []).trans rfl,
   (claim9_lazy_creation.2.1 { ed0 with dlSlot := some 5 } [] 5 rfl).2.2.1,
   claim9_lazy_creation.2.2 ed0 [Value.vstr "evt", Value.vcallable 1] rfl⟩

theorem dispatch_list_none_fst {st : EDState} (hs : st.dlSlot = none) :
    (dispatch_list st).1 = st.nextHandle := by
  rw [dispatch_list_of_none hs]

theorem dispatch_list_none_heap {st : EDState} (hs : st.dlSlot = none) (ty : String) :
    (dispatch_list st).2.dlHeap st.nextHandle ty = ([], []) := by
  rw [dispatch_list_of_none hs]
  simp [updateFn, emptyDL]

theorem dlRemove_of_empty (d : String → List Entry × List Entry)
    (hd : ∀ t, d t = ([], [])) (ty : String) (cb : Nat) (uc : Bool) (t : String) :
    dlRemove d ty cb uc t = ([], []) := by
  simp only [dlRemove]
  by_cases ht : t = ty
  · subst ht
    cases uc <;> simp [hd, removeListener]
  · simp [ht, hd]

/-- C10: the query operations are not state-pure — calling
`hasEventListener`, `willTrigger` or `removeEventListener` on an object
with no dispatch list attached allocates a fresh empty one and stores
it in the `dispatch_list` slot. -/
theorem claim10_query_creates :
    ∀ (st : EDState) (args : List Value), st.dlSlot = none →
      ((has_event_listener st args).1.dlSlot = some st.nextHandle ∧
        ∀ ty, (has_event_listener st args).1.dlHeap st.nextHandle ty = ([], [])) ∧
      ((will_trigger_entry st args).1.dlSlot = some st.nextHandle ∧
        ∀ ty, (will_trigger_entry st args).1.dlHeap st.nextHandle ty = ([], [])) ∧
      ((remove_event_listener st args).1.dlSlot = some st.nextHandle ∧
        ∀ ty, (remove_event_listener st args).1.dlHeap st.nextHandle ty = ([], [])) := by
  intro st args hs
  have hd : (dispatch_list st).2.dlSlot = some st.nextHandle := by
    rw [dispatch_list_of_none hs]
  refine ⟨⟨?_, ?_⟩, ⟨?_, ?_⟩, ⟨?_, ?_⟩⟩
  · rw [has_event_listener_state st args]
    exact hd
  · intro ty
    rw [has_event_listener_state st args]
    exact dispatch_list_none_heap hs ty
  · rw [will_trigger_entry_state st args]
    exact hd
  · intro ty
    rw [will_trigger_entry_state st args]
    exact dispatch_list_none_heap hs ty
  · exact (remove_event_listener_dlSlot st args).trans hd
  · intro ty
    rw [remove_event_listener]
    cases hc : asCallable (args.getD 1 Value.undefined) with
    | error e =>
      simp only [hc]
      exact dispatch_list_none_heap hs ty
    | ok cb =>
      simp only [hc]
      have hfst := dispatch_list_none_fst hs
      have hemp : ∀ t, (dispatch_list st).2.dlHeap (dispatch_list st).1 t = ([], []) := by
        intro t
        rw [hfst]
        exact dispatch_list_none_heap hs t
      simp only [updateFn, hfst]
      rw [if_pos trivial]
      exact dlRemove_of_empty _ (by simpa [hfst] using hemp) _ cb _ ty

/-- Witness for C10 at a concrete input: a `hasEventListener` query on
a fresh dispatcher attaches empty dispatch list 0. -/
theorem claim10_query_creates_witness :
    (has_event_listener ed0 [Value.vstr "x"]).1.dlSlot = some 0 ∧
    (will_trigger_entry ed0 [Value.vstr "x"]).1.dlHeap 0 "x" = ([], []) :=
  ⟨(claim10_query_creates ed0 [Value.vstr "x"] rfl).1.1,
   (claim10_query_creates ed0 [Value.vstr "x"] rfl).2.1.2 "x"⟩

end RuffleEvents
